import Mathlib

/-!
Shallow embedding of the secure-budget-planner core (src/streamlit/auth_manager.py and
src/streamlit/database.py).

Modelling conventions:
* Time is a single `Nat` clock, in minutes (the code mixes `datetime.now()` and
  `datetime.utcnow()`; both are the same monotone wall clock here).  The 30-minute
  lockout is `now + 30`, the 24-hour token/session lifetime is `now + 1440`.
* Fernet (the `cryptography` library's authenticated symmetric encryption) is modelled
  as an ideal authenticated scheme: a ciphertext remembers the key it was produced
  under and decryption succeeds exactly under that key; any tampered or forged
  ciphertext is `Ciphertext.corrupt` and never decrypts.  This is the documented
  contract of `Fernet.encrypt`/`Fernet.decrypt` (`InvalidToken` on wrong key or
  tampering).
* bcrypt is modelled as an ideal salted hash: `verify_password` succeeds exactly when
  the password matches the one that was hashed (no collisions, salt elided since the
  code never inspects it).
* PyJWT `jwt.encode`/`jwt.decode` with HS256 is modelled by `Token.signed`, which
  carries the claim set and the signing secret; `jwtDecode` checks the secret
  (signature), then the embedded expiry (PyJWT raises `ExpiredSignatureError` when
  `exp <= now`), mirroring `auth_manager.verify_token`'s except clauses.
* SQLite tables are Lean lists of row structures; `SELECT ... WHERE` is `List.filter`
  or `List.find?` (fetchone = first match), `UPDATE` maps over rows, `DELETE` filters
  them out, `ORDER BY date DESC` is a stable insertion sort.
* Python `str(amount)` / `float(...)` round-tripping of amounts is exact (Python's
  float repr round-trips), so amounts are modelled as `ℚ` carried through unchanged.
-/

namespace SBP

/-- Ideal model of Fernet authenticated encryption over plaintexts of type `α`:
`enc key data` is a well-formed ciphertext produced under `key`; `corrupt` stands for
any tampered or foreign blob, which no key decrypts. -/
inductive Ciphertext (α : Type) where
  | enc (key : Nat) (data : α)
  | corrupt (junk : Nat)
deriving DecidableEq, Repr

/-- `Fernet.encrypt` under a given key. -/
def fernetEncrypt {α : Type} (key : Nat) (data : α) : Ciphertext α :=
  Ciphertext.enc key data

/-- `Fernet.decrypt` under a given key: `none` models the `InvalidToken` exception
(wrong key or tampered ciphertext). -/
def fernetDecrypt {α : Type} (key : Nat) : Ciphertext α → Option α
  | Ciphertext.enc k d => if k = key then some d else none
  | Ciphertext.corrupt _ => none

/-- Python's `str.lower()` (character-wise lower-casing; structural so that it
evaluates on concrete inputs). -/
def strToLower (s : String) : String :=
  ⟨s.data.map Char.toLower⟩

/-- A bcrypt hash (idealized: the salt is elided, verification is exact match). -/
structure BcryptHash where
  value : String
deriving DecidableEq, Repr

/-- `AuthManager.hash_password`. -/
def hash_password (password : String) : BcryptHash :=
  ⟨password⟩

/-- `AuthManager.verify_password`. -/
def verify_password (password : String) (passwordHash : BcryptHash) : Bool :=
  password == passwordHash.value

/-- One row of the `users` table (columns in schema order; `user[2]` is
`passwordHash`, `user[5]` is `securityAnswerHash`, `user[8]` is `failedAttempts`,
`user[9]` is `lockedUntil`). -/
structure UserRow where
  id : Nat
  username : String
  passwordHash : BcryptHash
  email : String
  securityQuestion : String
  securityAnswerHash : BcryptHash
  lastLogin : Option Nat
  failedAttempts : Nat
  lockedUntil : Option Nat
deriving DecidableEq, Repr

/-- A JWT bearer token: `signed` carries the HS256 claim set `{user_id, username,
exp}` together with the secret it was signed with; `garbage` is any string that is
not a structurally valid signed token. -/
inductive Token where
  | signed (userId : Nat) (username : String) (exp : Nat) (secret : Nat)
  | garbage (n : Nat)
deriving DecidableEq, Repr

/-- One row of the `sessions` table. -/
structure SessionRow where
  id : Nat
  userId : Nat
  token : Token
  expiresAt : Nat
deriving DecidableEq, Repr

/-- The users database owned by `AuthManager` (users + sessions tables, with the
next autoincrement ids). -/
structure AuthState where
  users : List UserRow
  sessions : List SessionRow
  nextUserId : Nat
  nextSessionId : Nat
deriving DecidableEq, Repr

/-- `SELECT * FROM users WHERE username = ?` followed by `fetchone()`. -/
def findUser (username : String) (st : AuthState) : Option UserRow :=
  st.users.find? (fun u => u.username == username)

/-- `UPDATE users SET ... WHERE id = ?`. -/
def updateUser (st : AuthState) (uid : Nat) (f : UserRow → UserRow) : AuthState :=
  { st with users := st.users.map (fun u => if u.id = uid then f u else u) }

/-- The lock check of `login`: `user[9] and datetime.now() < user[9]`. -/
def isLockedNow (now : Nat) (u : UserRow) : Bool :=
  match u.lockedUntil with
  | some t => now < t
  | none => false

/-- Result of `AuthManager.login` (the Python `(bool, str-or-token)` tuple). -/
inductive LoginResult where
  | failure (msg : String)
  | success (token : Token)
deriving DecidableEq, Repr

/-- `AuthManager.create_user`: inserts the new user unless the username or email
already exists (sqlite raises `IntegrityError` on either UNIQUE column, caught and
turned into `False`).  The security answer is lower-cased before hashing. -/
def create_user (username password email question answer : String)
    (st : AuthState) : Bool × AuthState :=
  if st.users.any (fun u => u.username == username || u.email == email) then
    (false, st)
  else
    (true,
      { st with
        users := st.users ++
          [{ id := st.nextUserId
             username := username
             passwordHash := hash_password password
             email := email
             securityQuestion := question
             securityAnswerHash := hash_password (strToLower answer)
             lastLogin := none
             failedAttempts := 0
             lockedUntil := none }]
        nextUserId := st.nextUserId + 1 })

/-- `AuthManager.login`, at clock `now`, with signing secret `jwtSecret`. -/
def login (jwtSecret now : Nat) (username password : String)
    (st : AuthState) : LoginResult × AuthState :=
  match findUser username st with
  | none => (LoginResult.failure "Invalid username or password", st)
  | some user =>
    if isLockedNow now user then
      (LoginResult.failure "Account is locked. Try again later.", st)
    else if ¬ verify_password password user.passwordHash then
      let fa := user.failedAttempts + 1
      let lu : Option Nat := if fa ≥ 5 then some (now + 30) else none
      (LoginResult.failure "Invalid username or password",
        updateUser st user.id
          (fun u => { u with failedAttempts := fa, lockedUntil := lu }))
    else
      let tok := Token.signed user.id user.username (now + 1440) jwtSecret
      let st1 := updateUser st user.id
        (fun u => { u with failedAttempts := 0, lockedUntil := none,
                           lastLogin := some now })
      (LoginResult.success tok,
        { st1 with
          sessions := st1.sessions ++
            [{ id := st1.nextSessionId, userId := user.id, token := tok,
               expiresAt := now + 1440 }]
          nextSessionId := st1.nextSessionId + 1 })

/-- Outcome of `jwt.decode(token, secret, algorithms=[HS256])`. -/
inductive JwtDecodeResult where
  | ok (userId : Nat) (username : String)
  | expired
  | malformed
deriving DecidableEq, Repr

/-- PyJWT decode: signature check first (`InvalidTokenError` on mismatch or on a
structurally invalid token), then the embedded expiry (`ExpiredSignatureError` when
`exp <= now`). -/
def jwtDecode (secret now : Nat) : Token → JwtDecodeResult
  | Token.signed uid un exp s =>
    if s ≠ secret then JwtDecodeResult.malformed
    else if exp ≤ now then JwtDecodeResult.expired
    else JwtDecodeResult.ok uid un
  | Token.garbage _ => JwtDecodeResult.malformed

/-- Result of `AuthManager.verify_token`: `(True, payload)`, `(False, None)` (no
matching non-expired session row), or `(False, msg)` from the except clauses. -/
inductive VerifyResult where
  | ok (userId : Nat) (username : String)
  | revoked
  | failMsg (msg : String)
deriving DecidableEq, Repr

/-- `AuthManager.verify_token`: decode the JWT, then require a session row with this
exact token and `expires_at > now`. -/
def verify_token (jwtSecret now : Nat) (token : Token) (st : AuthState) :
    VerifyResult :=
  match jwtDecode jwtSecret now token with
  | JwtDecodeResult.malformed => VerifyResult.failMsg "Invalid token"
  | JwtDecodeResult.expired => VerifyResult.failMsg "Token has expired"
  | JwtDecodeResult.ok uid un =>
    match st.sessions.find? (fun s => s.token == token && now < s.expiresAt) with
    | none => VerifyResult.revoked
    | some _ => VerifyResult.ok uid un

/-- `AuthManager.logout`: `DELETE FROM sessions WHERE token = ?`, always `True`. -/
def logout (token : Token) (st : AuthState) : Bool × AuthState :=
  (true, { st with sessions := st.sessions.filter (fun s => s.token != token) })

/-- `AuthManager.reset_password`: look the user up, compare the lower-cased answer
against the stored answer hash, and on success overwrite only the password hash. -/
def reset_password (username securityAnswer newPassword : String)
    (st : AuthState) : Bool × AuthState :=
  match findUser username st with
  | none => (false, st)
  | some user =>
    if ¬ verify_password (strToLower securityAnswer) user.securityAnswerHash then
      (false, st)
    else
      (true, updateUser st user.id
        (fun u => { u with passwordHash := hash_password newPassword }))

/-- `AuthManager.encrypt_data` (the string payload is what Python's `.encode()`
produced). -/
def encrypt_data (key : Nat) (data : String) : Ciphertext String :=
  fernetEncrypt key data

/-- `AuthManager.decrypt_data`; `none` is the propagated `InvalidToken`
(`DecryptionError`). -/
def decrypt_data (key : Nat) (encryptedData : Ciphertext String) : Option String :=
  fernetDecrypt key encryptedData

/-- The persisted `encryption.key` file. -/
structure KeyFileState where
  contents : Option Nat
deriving DecidableEq, Repr

/-- The fields of a constructed `AuthManager` relevant to keys and signing. -/
structure AuthManagerInst where
  encryptionKey : Nat
  jwtSecret : Nat
deriving DecidableEq, Repr

/-- `AuthManager.__init__`: load the Fernet key from `encryption.key` if it exists,
otherwise generate `freshFernetKey` and persist it; the JWT secret is
`os.environ.get('JWT_SECRET', secrets.token_hex(32))`, i.e. the environment value
when set and otherwise the freshly drawn random `freshJwtSecret`. -/
def mkAuthManager (envJwtSecret : Option Nat) (freshFernetKey freshJwtSecret : Nat)
    (fs : KeyFileState) : AuthManagerInst × KeyFileState :=
  match fs.contents with
  | none =>
    ({ encryptionKey := freshFernetKey, jwtSecret := envJwtSecret.getD freshJwtSecret },
      ⟨some freshFernetKey⟩)
  | some k =>
    ({ encryptionKey := k, jwtSecret := envJwtSecret.getD freshJwtSecret }, fs)

/-- One row of the `salary` table. -/
structure SalaryRow where
  id : Nat
  userId : Nat
  amountEncrypted : Ciphertext ℚ
  updatedAt : Nat
deriving DecidableEq, Repr

/-- One row of the `transactions` table; `descriptionEncrypted` is a nullable
column in the schema, hence `Option`. -/
structure TransRow where
  id : Nat
  userId : Nat
  date : Nat
  amountEncrypted : Ciphertext ℚ
  category : String
  descriptionEncrypted : Option (Ciphertext String)
  createdAt : Nat
deriving DecidableEq, Repr

/-- The budget database owned by `BudgetDatabase` (salary + transactions tables,
with the next autoincrement ids). -/
structure BudgetState where
  salary : List SalaryRow
  transactions : List TransRow
  nextSalaryId : Nat
  nextTransId : Nat
deriving DecidableEq, Repr

/-- Errors propagated out of the ledger: `decryptionError` is Fernet's
`InvalidToken`; `typeError` is the `TypeError` Python raises when
`decrypt_data` is handed a NULL column value. -/
inductive DbError where
  | decryptionError
  | typeError
deriving DecidableEq, Repr

/-- `BudgetDatabase.update_salary`: delete every salary row of the user, then
insert one fresh encrypted row (`str(amount)` round-trips exactly, so the
plaintext is the amount itself). -/
def update_salary (key uid now : Nat) (amount : ℚ) (st : BudgetState) :
    BudgetState :=
  { st with
    salary := st.salary.filter (fun r => r.userId != uid) ++
      [{ id := st.nextSalaryId, userId := uid,
         amountEncrypted := fernetEncrypt key amount, updatedAt := now }]
    nextSalaryId := st.nextSalaryId + 1 }

/-- Stable insert for `ORDER BY updated_at DESC` on salary rows. -/
def insertUpdatedDesc (r : SalaryRow) : List SalaryRow → List SalaryRow
  | [] => [r]
  | x :: xs => if x.updatedAt < r.updatedAt then r :: x :: xs
               else x :: insertUpdatedDesc r xs

/-- `ORDER BY updated_at DESC` (stable). -/
def sortByUpdatedDesc : List SalaryRow → List SalaryRow
  | [] => []
  | r :: rs => insertUpdatedDesc r (sortByUpdatedDesc rs)

/-- `BudgetDatabase.get_salary`: latest salary row of the user, decrypted;
`0` when no row exists; a propagated `DecryptionError` when the ciphertext does
not decrypt under the current key. -/
def get_salary (key uid : Nat) (st : BudgetState) : Except DbError ℚ :=
  match sortByUpdatedDesc (st.salary.filter (fun r => r.userId == uid)) with
  | [] => Except.ok 0
  | r :: _ =>
    match fernetDecrypt key r.amountEncrypted with
    | some a => Except.ok a
    | none => Except.error DbError.decryptionError

/-- `BudgetDatabase.add_transaction` (Python default `description=""`): encrypts
the amount and the description and inserts one row; the description column is
always written, never left NULL. -/
def add_transaction (key uid now : Nat) (date : Nat) (amount : ℚ)
    (category : String) (st : BudgetState) (description : String := "") :
    BudgetState :=
  { st with
    transactions := st.transactions ++
      [{ id := st.nextTransId, userId := uid, date := date,
         amountEncrypted := fernetEncrypt key amount, category := category,
         descriptionEncrypted := some (fernetEncrypt key description),
         createdAt := now }]
    nextTransId := st.nextTransId + 1 }

/-- The date filter of `get_transactions`: `date BETWEEN ? AND ?` is added to the
query only when BOTH `start_date` and `end_date` are given. -/
def inRange (startDate endDate : Option Nat) (d : Nat) : Bool :=
  match startDate, endDate with
  | some s, some e => s ≤ d && d ≤ e
  | _, _ => true

/-- Stable insert for `ORDER BY date DESC` on transaction rows. -/
def insertDateDesc (r : TransRow) : List TransRow → List TransRow
  | [] => [r]
  | x :: xs => if x.date < r.date then r :: x :: xs else x :: insertDateDesc r xs

/-- `ORDER BY date DESC` (stable). -/
def sortByDateDesc : List TransRow → List TransRow
  | [] => []
  | r :: rs => insertDateDesc r (sortByDateDesc rs)

/-- A decrypted transaction as returned to the caller of `get_transactions`. -/
structure DecTrans where
  id : Nat
  userId : Nat
  date : Nat
  category : String
  amount : ℚ
  description : String
deriving DecidableEq, Repr

/-- Decryption of one row inside the loop of `get_transactions`: decrypt the
amount, then the description; a NULL description column raises `TypeError`, an
undecryptable ciphertext raises `DecryptionError`. -/
def decryptRow (key : Nat) (r : TransRow) : Except DbError DecTrans :=
  match fernetDecrypt key r.amountEncrypted with
  | none => Except.error DbError.decryptionError
  | some amt =>
    match r.descriptionEncrypted with
    | none => Except.error DbError.typeError
    | some dc =>
      match fernetDecrypt key dc with
      | none => Except.error DbError.decryptionError
      | some desc =>
        Except.ok { id := r.id, userId := r.userId, date := r.date,
                    category := r.category, amount := amt,
                    description := desc }

/-- The decryption loop of `get_transactions`: rows are decrypted in order and
the first failure aborts the whole listing. -/
def decryptRows (key : Nat) : List TransRow → Except DbError (List DecTrans)
  | [] => Except.ok []
  | r :: rs =>
    match decryptRow key r with
    | Except.error e => Except.error e
    | Except.ok t =>
      match decryptRows key rs with
      | Except.error e => Except.error e
      | Except.ok rest => Except.ok (t :: rest)

/-- `BudgetDatabase.get_transactions`: select the user's rows, add the date
range only when both bounds are present, order by date descending, decrypt. -/
def get_transactions (key uid : Nat) (startDate endDate : Option Nat)
    (st : BudgetState) : Except DbError (List DecTrans) :=
  decryptRows key
    (sortByDateDesc
      (st.transactions.filter
        (fun r => r.userId == uid && inRange startDate endDate r.date)))

/-- One transaction entry of a decrypted backup: `date` is `none` when the JSON
date string does not parse with `strptime(..., %Y-%m-%d)`, `description` is
`none` when the JSON value is null (Python then raises inside `encrypt_data`). -/
structure BackupTrans where
  date : Option Nat
  amount : ℚ
  category : String
  description : Option String
deriving DecidableEq, Repr

/-- Plaintext of a backup blob: either a JSON document of the shape `export`
writes, or bytes that `json.loads` rejects. -/
inductive BackupBlob where
  | valid (salary : ℚ) (transactions : List BackupTrans)
  | invalidJson (junk : Nat)
deriving DecidableEq, Repr

/-- The re-insert loop of `import_database`: each entry goes through
`add_transaction`; a bad date or a null description raises mid-loop, which the
outer `except` turns into `False`, leaving the rows inserted so far. -/
def importTransList (key uid now : Nat) :
    List BackupTrans → BudgetState → Bool × BudgetState
  | [], st => (true, st)
  | t :: ts, st =>
    match t.date with
    | none => (false, st)
    | some d =>
      match t.description with
      | none => (false, st)
      | some desc =>
        importTransList key uid now ts
          (add_transaction key uid now d t.amount t.category st desc)

/-- `BudgetDatabase.import_database`: decrypt and parse the blob (both before any
write; failure is caught and reported as `False` with the state untouched); then
destructively delete the user's rows and re-insert from the snapshot
(`if data['salary']:` skips a falsy 0 salary). -/
def import_database (key uid now : Nat) (blob : Ciphertext BackupBlob)
    (st : BudgetState) : Bool × BudgetState :=
  match fernetDecrypt key blob with
  | none => (false, st)
  | some (BackupBlob.invalidJson _) => (false, st)
  | some (BackupBlob.valid sal txs) =>
    let cleared : BudgetState :=
      { st with
        salary := st.salary.filter (fun r => r.userId != uid)
        transactions := st.transactions.filter (fun r => r.userId != uid) }
    let withSalary : BudgetState :=
      if sal ≠ 0 then update_salary key uid now sal cleared else cleared
    importTransList key uid now txs withSalary

/-- Row-level description invariant: the description column holds a well-formed
ciphertext produced under `key` (in particular it is not NULL). -/
def descOkRow (key : Nat) (r : TransRow) : Bool :=
  match r.descriptionEncrypted with
  | some (Ciphertext.enc k _) => k == key
  | _ => false

/-- Table-level description invariant over the transactions table. -/
def descOk (key : Nat) (st : BudgetState) : Bool :=
  st.transactions.all (descOkRow key)

/-! ### Concrete sample data used by witnesses and counterexamples -/

/-- Sample user: active, no failed attempts. -/
def uAlice : UserRow :=
  { id := 1, username := "alice", passwordHash := hash_password "hunter2pass",
    email := "alice@example.com", securityQuestion := "pet",
    securityAnswerHash := hash_password "rex",
    lastLogin := none, failedAttempts := 0, lockedUntil := none }

/-- Sample user: 4 failed attempts, previous lock expired at time 100. -/
def uCarol : UserRow :=
  { id := 2, username := "carol", passwordHash := hash_password "correcthorse",
    email := "carol@example.com", securityQuestion := "pet",
    securityAnswerHash := hash_password "cat",
    lastLogin := none, failedAttempts := 4, lockedUntil := some 100 }

/-- Sample user: locked until time 1000. -/
def uBob : UserRow :=
  { id := 3, username := "bob", passwordHash := hash_password "bobpassword",
    email := "bob@example.com", securityQuestion := "pet",
    securityAnswerHash := hash_password "dog",
    lastLogin := none, failedAttempts := 5, lockedUntil := some 1000 }

/-- Sample users database. -/
def stAuth : AuthState :=
  { users := [uAlice, uCarol, uBob], sessions := [], nextUserId := 4,
    nextSessionId := 1 }

/-- Empty budget database. -/
def emptyBudget : BudgetState :=
  { salary := [], transactions := [], nextSalaryId := 1, nextTransId := 1 }

/-- Sample budget database: user 1 has transactions on dates 10 and 5 (both
encrypted under key 0), user 2 has one on date 7. -/
def stC7 : BudgetState :=
  { salary := []
    transactions :=
      [{ id := 1, userId := 1, date := 5,
         amountEncrypted := fernetEncrypt 0 (50 : ℚ), category := "Needs",
         descriptionEncrypted := some (fernetEncrypt 0 "rent"), createdAt := 1 },
       { id := 2, userId := 1, date := 10,
         amountEncrypted := fernetEncrypt 0 (20 : ℚ), category := "Wants",
         descriptionEncrypted := some (fernetEncrypt 0 "cinema"), createdAt := 2 },
       { id := 3, userId := 2, date := 7,
         amountEncrypted := fernetEncrypt 0 (30 : ℚ), category := "Savings",
         descriptionEncrypted := some (fernetEncrypt 0 ""), createdAt := 3 }]
    nextSalaryId := 1, nextTransId := 4 }

/-- Decrypted listing of user 1's transactions in `stC7` when no date filter is
in effect (both rows, date descending). -/
def resC7 : List DecTrans :=
  [{ id := 2, userId := 1, date := 10, category := "Wants", amount := 20,
     description := "cinema" },
   { id := 1, userId := 1, date := 5, category := "Needs", amount := 50,
     description := "rent" }]

/-- Decrypted listing of user 1's transactions in `stC7` in the range [6, 10]. -/
def resC7r : List DecTrans :=
  [{ id := 2, userId := 1, date := 10, category := "Wants", amount := 20,
     description := "cinema" }]

/-- A sample well-formed backup blob under key 0 for user-side import tests. -/
def blobC10 : Ciphertext BackupBlob :=
  fernetEncrypt 0 (BackupBlob.valid 5
    [{ date := some 3, amount := 7, category := "Wants",
       description := some "y" }])

/-! ### Helper lemmas -/

/-- Deleting a user's salary rows leaves nothing of that user to select: the
combined select-after-delete predicate never holds. -/
theorem salary_filter_out_keep (uid : Nat) (l : List SalaryRow) :
    l.filter (fun r => r.userId == uid && r.userId != uid) = [] := by
  induction l with
  | nil => rfl
  | cons x xs ih =>
    by_cases h : x.userId = uid <;> simp [List.filter_cons, h, ih]

/-- `find?` by username commutes with mapping a username-preserving function
over the rows. -/
theorem find?_map_username (username : String) (g : UserRow → UserRow)
    (hg : ∀ x, (g x).username = x.username) (l : List UserRow) :
    (l.map g).find? (fun u => u.username == username) =
      (l.find? (fun u => u.username == username)).map g := by
  induction l with
  | nil => rfl
  | cons x xs ih =>
    have hgx : ((g x).username == username) = (x.username == username) := by
      rw [hg]
    cases hb : (x.username == username) with
    | false => simp [List.find?, hgx, hb, ih]
    | true => simp [List.find?, hgx, hb]

/-- Looking a user up after an `UPDATE ... WHERE id = ?` that does not touch the
username column returns the updated row of the user found before. -/
theorem findUser_updateUser (username : String) (st : AuthState) (uid : Nat)
    (f : UserRow → UserRow) (hf : ∀ x, (f x).username = x.username) :
    findUser username (updateUser st uid f) =
      (findUser username st).map (fun x => if x.id = uid then f x else x) := by
  unfold findUser updateUser
  exact find?_map_username username _
    (fun x => by by_cases h : x.id = uid <;> simp [h, hf]) st.users

/-- A list extended with an element satisfying the predicate always has a
`find?` hit. -/
theorem find?_append_right {α : Type} (p : α → Bool) (l : List α) (b : α)
    (hb : p b = true) : ∃ c, (l ++ [b]).find? p = some c := by
  induction l with
  | nil => exact ⟨b, by simp [List.find?, hb]⟩
  | cons x xs ih =>
    cases hx : p x with
    | true => exact ⟨x, by simp [List.find?, hx]⟩
    | false =>
      obtain ⟨c, hc⟩ := ih
      exact ⟨c, by simp [List.find?, hx, hc]⟩

/-- After `DELETE FROM sessions WHERE token = ?`, no session row with that token
can be found, whatever the expiry check. -/
theorem find?_filter_ne_token (tok : Token) (now : Nat) (l : List SessionRow) :
    (l.filter (fun s => s.token != tok)).find?
      (fun s => s.token == tok && now < s.expiresAt) = none := by
  induction l with
  | nil => rfl
  | cons x xs ih =>
    by_cases h : x.token = tok
    · simp [List.filter_cons, h, ih]
    · simp [List.filter_cons, List.find?, h, ih]

/-- Membership is preserved by the descending-date insert. -/
theorem mem_insertDateDesc {x r : TransRow} {l : List TransRow} :
    x ∈ insertDateDesc r l ↔ x = r ∨ x ∈ l := by
  induction l with
  | nil => simp [insertDateDesc]
  | cons y ys ih =>
    by_cases h : y.date < r.date
    · simp only [insertDateDesc, if_pos h, List.mem_cons]
    · simp only [insertDateDesc, if_neg h, List.mem_cons, ih]
      tauto

/-- Membership is preserved by the descending-date sort. -/
theorem mem_sortByDateDesc {x : TransRow} {l : List TransRow} :
    x ∈ sortByDateDesc l ↔ x ∈ l := by
  induction l with
  | nil => simp [sortByDateDesc]
  | cons y ys ih =>
    simp only [sortByDateDesc, mem_insertDateDesc, List.mem_cons, ih]

/-- Inserting into a descending-by-date list keeps it descending. -/
theorem pairwise_insertDateDesc (r : TransRow) (l : List TransRow)
    (hl : List.Pairwise (fun a b => b.date ≤ a.date) l) :
    List.Pairwise (fun a b => b.date ≤ a.date) (insertDateDesc r l) := by
  induction l with
  | nil => simp [insertDateDesc]
  | cons y ys ih =>
    rcases List.pairwise_cons.mp hl with ⟨hy, hys⟩
    by_cases h : y.date < r.date
    · rw [insertDateDesc, if_pos h]
      refine List.pairwise_cons.mpr ⟨?_, hl⟩
      intro z hz
      rcases List.mem_cons.mp hz with rfl | hz2
      · exact Nat.le_of_lt h
      · exact le_trans (hy z hz2) (Nat.le_of_lt h)
    · rw [insertDateDesc, if_neg h]
      refine List.pairwise_cons.mpr ⟨?_, ih hys⟩
      intro z hz
      rcases mem_insertDateDesc.mp hz with rfl | hz2
      · exact Nat.not_lt.mp h
      · exact hy z hz2

/-- The sort used for `ORDER BY date DESC` yields a descending-by-date list. -/
theorem pairwise_sortByDateDesc (l : List TransRow) :
    List.Pairwise (fun a b => b.date ≤ a.date) (sortByDateDesc l) := by
  induction l with
  | nil => simp [sortByDateDesc]
  | cons y ys ih =>
    rw [sortByDateDesc]
    exact pairwise_insertDateDesc y _ ih

/-- A successfully decrypted row keeps the row's user id and date. -/
theorem decryptRow_ok (key : Nat) (r : TransRow) (t : DecTrans)
    (h : decryptRow key r = Except.ok t) :
    t.userId = r.userId ∧ t.date = r.date := by
  unfold decryptRow at h
  split at h
  · exact absurd h (by simp)
  · split at h
    · exact absurd h (by simp)
    · split at h
      · exact absurd h (by simp)
      · simp only [Except.ok.injEq] at h
        subst h
        exact ⟨rfl, rfl⟩

/-- A successful decryption pass returns the rows' user ids and dates
unchanged, in order. -/
theorem decryptRows_map (key : Nat) (rows : List TransRow)
    (res : List DecTrans) (h : decryptRows key rows = Except.ok res) :
    res.map (fun t => (t.userId, t.date)) =
      rows.map (fun r => (r.userId, r.date)) := by
  induction rows generalizing res with
  | nil =>
    simp only [decryptRows, Except.ok.injEq] at h
    subst h
    rfl
  | cons r rs ih =>
    unfold decryptRows at h
    cases ha : decryptRow key r with
    | error e => rw [ha] at h; exact absurd h (by simp)
    | ok t =>
      rw [ha] at h
      cases hrec : decryptRows key rs with
      | error e => rw [hrec] at h; exact absurd h (by simp)
      | ok rest =>
        rw [hrec] at h
        simp only [Except.ok.injEq] at h
        subst h
        obtain ⟨h1, h2⟩ := decryptRow_ok key r t ha
        simp [h1, h2, ih rest hrec]

/-- When one of the two bounds is absent, the SQL query gets no BETWEEN clause:
the date predicate is vacuously true. -/
theorem inRange_none (sd ed : Option Nat) (d : Nat)
    (h : sd = none ∨ ed = none) : inRange sd ed d = true := by
  rcases h with rfl | rfl
  · rfl
  · cases sd <;> rfl

/-! ### Claim theorems -/

/-- C3: for every payload `x` (including the empty payload),
`decrypt_data (encrypt_data x) = x` under the same key; decryption under a
different key, or of a tampered ciphertext, fails with `DecryptionError`
(`none`) rather than returning data. -/
theorem C3_encrypt_decrypt_roundtrip (key otherKey junk : Nat) (x : String)
    (hkeys : key ≠ otherKey) :
    decrypt_data key (encrypt_data key x) = some x ∧
    decrypt_data otherKey (encrypt_data key x) = none ∧
    decrypt_data key (Ciphertext.corrupt junk) = none := by
  refine ⟨?_, ?_, ?_⟩ <;>
    simp [decrypt_data, encrypt_data, fernetDecrypt, fernetEncrypt, hkeys]

/-- Witness for C3 at key 0, other key 1, empty payload. -/
theorem C3_encrypt_decrypt_roundtrip_witness :
    decrypt_data 0 (encrypt_data 0 "") = some "" ∧
    decrypt_data 1 (encrypt_data 0 "") = none ∧
    decrypt_data 0 (Ciphertext.corrupt 7) = none :=
  C3_encrypt_decrypt_roundtrip 0 1 7 "" (by decide)

/-- C4: an import that fails on a decryption error of the backup blob, or on a
parse error of its decrypted JSON, returns `false` and leaves the bound user's
pre-existing salary and transaction data unchanged. -/
theorem C4_import_error_atomic (key uid now junk : Nat)
    (blob : Ciphertext BackupBlob) (st : BudgetState)
    (h : fernetDecrypt key blob = none ∨
         blob = Ciphertext.enc key (BackupBlob.invalidJson junk)) :
    import_database key uid now blob st = (false, st) := by
  rcases h with h | h
  · simp [import_database, h]
  · subst h
    simp [import_database, fernetDecrypt]

/-- Witness for C4: a tampered blob at key 0 on the empty budget database. -/
theorem C4_import_error_atomic_witness :
    import_database 0 1 0 (Ciphertext.corrupt 3) emptyBudget =
      (false, emptyBudget) :=
  C4_import_error_atomic 0 1 0 0 (Ciphertext.corrupt 3) emptyBudget
    (Or.inl (by decide))

/-- C5: `getSalary` returns 0 when the bound user has no salary record, and
after `setSalary a` (which replaces the user's single current record by
delete-then-insert) `getSalary` returns exactly `a`. -/
theorem C5_salary_roundtrip (key uid now : Nat) (a : ℚ) (st : BudgetState) :
    (st.salary.filter (fun r => r.userId == uid) = [] →
      get_salary key uid st = Except.ok 0) ∧
    get_salary key uid (update_salary key uid now a st) = Except.ok a := by
  constructor
  · intro h
    simp [get_salary, h, sortByUpdatedDesc]
  · simp [get_salary, update_salary, List.filter_append, salary_filter_out_keep,
      sortByUpdatedDesc, insertUpdatedDesc, fernetDecrypt, fernetEncrypt]

/-- Witness for C5 on the empty budget database at amount 1234.56. -/
theorem C5_salary_roundtrip_witness :
    get_salary 0 1 emptyBudget = Except.ok 0 ∧
    get_salary 0 1 (update_salary 0 1 9 (123456 / 100 : ℚ) emptyBudget) =
      Except.ok (123456 / 100 : ℚ) :=
  ⟨(C5_salary_roundtrip 0 1 9 (123456 / 100 : ℚ) emptyBudget).1 (by decide),
   (C5_salary_roundtrip 0 1 9 (123456 / 100 : ℚ) emptyBudget).2⟩

/-- C8: `login` returns the identical failure result (same flag and message,
"Invalid username or password") whether the username does not exist or the
username exists, is not locked, and the password is wrong, so the two cases are
indistinguishable to the caller; only the locked state is distinguishably
reported with the "Account is locked" message. -/
theorem C8_login_enumeration_resistant (secret now : Nat)
    (missing pw1 pw2 pw3 : String) (st : AuthState) (u v : UserRow)
    (hmissing : findUser missing st = none)
    (hu : findUser u.username st = some u)
    (hulock : isLockedNow now u = false)
    (hupw : verify_password pw2 u.passwordHash = false)
    (hv : findUser v.username st = some v)
    (hvlock : isLockedNow now v = true) :
    (login secret now missing pw1 st).1 =
      LoginResult.failure "Invalid username or password" ∧
    (login secret now u.username pw2 st).1 =
      LoginResult.failure "Invalid username or password" ∧
    (login secret now missing pw1 st).1 = (login secret now u.username pw2 st).1 ∧
    (login secret now v.username pw3 st).1 =
      LoginResult.failure "Account is locked. Try again later." := by
  refine ⟨?_, ?_, ?_, ?_⟩ <;>
    simp [login, hmissing, hu, hv, hulock, hvlock, hupw]

/-- Witness for C8: in `stAuth`, username "ghost" does not exist, "alice" exists
unlocked with a wrong password, "bob" is locked at time 5. -/
theorem C8_login_enumeration_resistant_witness :
    (login 0 5 "ghost" "whatever" stAuth).1 =
      LoginResult.failure "Invalid username or password" ∧
    (login 0 5 "alice" "wrongpass" stAuth).1 =
      LoginResult.failure "Invalid username or password" ∧
    (login 0 5 "ghost" "whatever" stAuth).1 =
      (login 0 5 "alice" "wrongpass" stAuth).1 ∧
    (login 0 5 "bob" "bobpassword" stAuth).1 =
      LoginResult.failure "Account is locked. Try again later." :=
  C8_login_enumeration_resistant 0 5 "ghost" "whatever" "wrongpass"
    "bobpassword" stAuth uAlice uBob (by decide) (by decide) (by decide)
    (by decide) (by decide) (by decide)

/-- C6: `resetPassword` succeeds when given the correct security answer in any
letter case (answers are lower-cased before hashing and before comparison) and
overwrites only the password hash, leaving `failed_attempts` and `locked_until`
(and everything else) unchanged and requiring no current password; with an
incorrect answer it fails and the whole state — hence the old password — is
unchanged. -/
theorem C6_reset_password_case_insensitive
    (username answer given wrongAnswer newPassword : String)
    (st : AuthState) (u : UserRow)
    (hfind : findUser username st = some u)
    (hans : u.securityAnswerHash = hash_password (strToLower answer)) :
    (strToLower given = strToLower answer →
      (reset_password username given newPassword st).1 = true ∧
      findUser username (reset_password username given newPassword st).2 =
        some { u with passwordHash := hash_password newPassword }) ∧
    (strToLower wrongAnswer ≠ strToLower answer →
      reset_password username wrongAnswer newPassword st = (false, st)) := by
  constructor
  · intro h
    have hv : verify_password (strToLower given) u.securityAnswerHash = true := by
      simp [verify_password, hans, hash_password, h]
    refine ⟨by simp [reset_password, hfind, hv], ?_⟩
    have hres : (reset_password username given newPassword st).2 =
        updateUser st u.id
          (fun x => { x with passwordHash := hash_password newPassword }) := by
      simp [reset_password, hfind, hv]
    rw [hres, findUser_updateUser username st u.id
      (fun x => { x with passwordHash := hash_password newPassword })
      (fun x => rfl), hfind]
    simp
  · intro h
    have hv : verify_password (strToLower wrongAnswer) u.securityAnswerHash = false := by
      simp [verify_password, hans, hash_password, h]
    simp [reset_password, hfind, hv]

/-- Witness for C6: alice registered the answer "Rex" (stored lower-cased); the
reset attempt "REX" succeeds and only the password hash changes, the attempt
"fido" fails and leaves the state unchanged. -/
theorem C6_reset_password_case_insensitive_witness :
    (reset_password "alice" "REX" "newpass123" stAuth).1 = true ∧
    findUser "alice" (reset_password "alice" "REX" "newpass123" stAuth).2 =
      some { uAlice with passwordHash := hash_password "newpass123" } ∧
    reset_password "alice" "fido" "newpass123" stAuth = (false, stAuth) := by
  have h := C6_reset_password_case_insensitive "alice" "Rex" "REX" "fido"
    "newpass123" stAuth uAlice (by decide) (by decide)
  exact ⟨(h.1 (by decide)).1, (h.1 (by decide)).2, h.2 (by decide)⟩

/-- C1: with 4 prior consecutive failures, the 5th failed attempt locks the
account until `now + 30` minutes; during the lock window every login attempt
(wrong or correct password) fails with the "Account is locked" message and
changes nothing (no attempt counted); once the window has elapsed, a
correct-password login succeeds and resets `failed_attempts` to 0 and
`locked_until` to NULL. -/
theorem C1_lockout_lifecycle (secret nowA nowB nowC : Nat)
    (username wrong correct : String) (st : AuthState) (u : UserRow)
    (hfind : findUser username st = some u)
    (hwrong : verify_password wrong u.passwordHash = false)
    (hcorrect : verify_password correct u.passwordHash = true) :
    (u.failedAttempts = 4 → isLockedNow nowA u = false →
      (login secret nowA username wrong st).1 =
        LoginResult.failure "Invalid username or password" ∧
      findUser username (login secret nowA username wrong st).2 =
        some { u with failedAttempts := 5, lockedUntil := some (nowA + 30) }) ∧
    (∀ t : Nat, u.lockedUntil = some t → nowB < t →
      login secret nowB username wrong st =
        (LoginResult.failure "Account is locked. Try again later.", st) ∧
      login secret nowB username correct st =
        (LoginResult.failure "Account is locked. Try again later.", st)) ∧
    (∀ t : Nat, u.lockedUntil = some t → t ≤ nowC →
      (login secret nowC username correct st).1 =
        LoginResult.success (Token.signed u.id u.username (nowC + 1440) secret) ∧
      findUser username (login secret nowC username correct st).2 =
        some { u with failedAttempts := 0, lockedUntil := none,
                      lastLogin := some nowC }) := by
  refine ⟨?_, ?_, ?_⟩
  · intro hfa hnl
    have hres : login secret nowA username wrong st =
        (LoginResult.failure "Invalid username or password",
          updateUser st u.id (fun x =>
            { x with failedAttempts := 5, lockedUntil := some (nowA + 30) })) := by
      simp [login, hfind, hnl, hwrong, hfa]
    refine ⟨by rw [hres], ?_⟩
    rw [hres]
    show findUser username (updateUser st u.id (fun x =>
      { x with failedAttempts := 5, lockedUntil := some (nowA + 30) })) = _
    rw [findUser_updateUser username st u.id
      (fun x => { x with failedAttempts := 5, lockedUntil := some (nowA + 30) })
      (fun x => rfl), hfind]
    simp
  · intro t ht hlt
    have hl : isLockedNow nowB u = true := by simp [isLockedNow, ht, hlt]
    constructor <;> simp [login, hfind, hl]
  · intro t ht hle
    have hl : isLockedNow nowC u = false := by
      simp [isLockedNow, ht, Nat.not_lt.mpr hle]
    have hres : (login secret nowC username correct st).1 =
        LoginResult.success (Token.signed u.id u.username (nowC + 1440) secret) := by
      simp [login, hfind, hl, hcorrect]
    refine ⟨hres, ?_⟩
    have husers : (login secret nowC username correct st).2.users =
        (updateUser st u.id (fun x =>
          { x with failedAttempts := 0, lockedUntil := none,
                   lastLogin := some nowC })).users := by
      simp [login, hfind, hl, hcorrect, updateUser]
    show ((login secret nowC username correct st).2.users.find?
      (fun x => x.username == username)) = _
    rw [husers]
    have hmap := findUser_updateUser username st u.id
      (fun x => { x with failedAttempts := 0, lockedUntil := none,
                         lastLogin := some nowC }) (fun x => rfl)
    unfold findUser at hmap
    rw [hmap]
    unfold findUser at hfind
    rw [hfind]
    simp

/-- Witness for C1 on user carol (4 failed attempts, stale lock until 100):
failure at time 200 locks until 230; at time 50 both passwords are rejected as
locked with no state change; at time 150 the correct password succeeds and
clears the counters. -/
theorem C1_lockout_lifecycle_witness :
    ((login 0 200 "carol" "bad" stAuth).1 =
      LoginResult.failure "Invalid username or password" ∧
    findUser "carol" (login 0 200 "carol" "bad" stAuth).2 =
      some { uCarol with failedAttempts := 5, lockedUntil := some (200 + 30) }) ∧
    login 0 50 "carol" "correcthorse" stAuth =
      (LoginResult.failure "Account is locked. Try again later.", stAuth) ∧
    ((login 0 150 "carol" "correcthorse" stAuth).1 =
      LoginResult.success (Token.signed uCarol.id uCarol.username (150 + 1440) 0) ∧
    findUser "carol" (login 0 150 "carol" "correcthorse" stAuth).2 =
      some { uCarol with failedAttempts := 0, lockedUntil := none,
                         lastLogin := some 150 }) := by
  have h := C1_lockout_lifecycle 0 200 50 150 "carol" "bad" "correcthorse"
    stAuth uCarol (by decide) (by decide) (by decide)
  exact ⟨h.1 (by decide) (by decide),
         (h.2.1 100 (by decide) (by decide)).1,
         h.2.2 100 (by decide) (by decide)⟩

/-- C2: a token returned by `login` verifies successfully immediately after
issuance (signature valid AND a matching non-expired session row exists); it
fails as expired once its embedded expiry has passed; a structurally invalid
token or a wrong-signature token fails as invalid; and immediately after
`logout` deletes its session row the same token is rejected (revoked: the
`(False, None)` return) even though its embedded expiry has not elapsed. -/
theorem C2_verify_session_lifecycle (secret secret2 now nowLate g : Nat)
    (username password : String) (st : AuthState) (u : UserRow)
    (hfind : findUser username st = some u)
    (hnl : isLockedNow now u = false)
    (hpw : verify_password password u.passwordHash = true) :
    (login secret now username password st).1 =
      LoginResult.success (Token.signed u.id u.username (now + 1440) secret) ∧
    verify_token secret now (Token.signed u.id u.username (now + 1440) secret)
      (login secret now username password st).2 =
      VerifyResult.ok u.id u.username ∧
    (now + 1440 ≤ nowLate →
      verify_token secret nowLate
        (Token.signed u.id u.username (now + 1440) secret)
        (login secret now username password st).2 =
        VerifyResult.failMsg "Token has expired") ∧
    verify_token secret now (Token.garbage g)
      (login secret now username password st).2 =
      VerifyResult.failMsg "Invalid token" ∧
    (secret2 ≠ secret →
      verify_token secret2 now
        (Token.signed u.id u.username (now + 1440) secret)
        (login secret now username password st).2 =
        VerifyResult.failMsg "Invalid token") ∧
    verify_token secret now (Token.signed u.id u.username (now + 1440) secret)
      (logout (Token.signed u.id u.username (now + 1440) secret)
        (login secret now username password st).2).2 =
      VerifyResult.revoked := by
  have hsess : (login secret now username password st).2.sessions =
      st.sessions ++
        [{ id := st.nextSessionId, userId := u.id,
           token := Token.signed u.id u.username (now + 1440) secret,
           expiresAt := now + 1440 }] := by
    simp [login, hfind, hnl, hpw, updateUser]
  refine ⟨by simp [login, hfind, hnl, hpw], ?_, ?_, ?_, ?_, ?_⟩
  · unfold verify_token
    have hdec : jwtDecode secret now
        (Token.signed u.id u.username (now + 1440) secret) =
        JwtDecodeResult.ok u.id u.username := by
      simp [jwtDecode]
    rw [hdec, hsess]
    obtain ⟨c, hc⟩ := find?_append_right
      (fun s => s.token == Token.signed u.id u.username (now + 1440) secret &&
        now < s.expiresAt)
      st.sessions
      { id := st.nextSessionId, userId := u.id,
        token := Token.signed u.id u.username (now + 1440) secret,
        expiresAt := now + 1440 }
      (by simp)
    rw [hc]
  · intro h
    simp [verify_token, jwtDecode, h]
  · simp [verify_token, jwtDecode]
  · intro h
    have hne : secret ≠ secret2 := Ne.symm h
    simp [verify_token, jwtDecode, hne]
  · unfold verify_token
    have hdec : jwtDecode secret now
        (Token.signed u.id u.username (now + 1440) secret) =
        JwtDecodeResult.ok u.id u.username := by
      simp [jwtDecode]
    rw [hdec]
    have hfilter : (logout (Token.signed u.id u.username (now + 1440) secret)
        (login secret now username password st).2).2.sessions =
        (login secret now username password st).2.sessions.filter
          (fun s => s.token != Token.signed u.id u.username (now + 1440) secret) := by
      simp [logout]
    rw [hfilter, find?_filter_ne_token]

/-- Witness for C2: alice logs in at time 5 with secret 0; the issued token
verifies at time 5, expires by time 2000, garbage and wrong-secret tokens are
invalid, and after logout the token is revoked. -/
theorem C2_verify_session_lifecycle_witness :
    (login 0 5 "alice" "hunter2pass" stAuth).1 =
      LoginResult.success (Token.signed uAlice.id uAlice.username (5 + 1440) 0) ∧
    verify_token 0 5 (Token.signed uAlice.id uAlice.username (5 + 1440) 0)
      (login 0 5 "alice" "hunter2pass" stAuth).2 =
      VerifyResult.ok uAlice.id uAlice.username ∧
    verify_token 0 2000 (Token.signed uAlice.id uAlice.username (5 + 1440) 0)
      (login 0 5 "alice" "hunter2pass" stAuth).2 =
      VerifyResult.failMsg "Token has expired" ∧
    verify_token 0 5 (Token.garbage 9)
      (login 0 5 "alice" "hunter2pass" stAuth).2 =
      VerifyResult.failMsg "Invalid token" ∧
    verify_token 1 5 (Token.signed uAlice.id uAlice.username (5 + 1440) 0)
      (login 0 5 "alice" "hunter2pass" stAuth).2 =
      VerifyResult.failMsg "Invalid token" ∧
    verify_token 0 5 (Token.signed uAlice.id uAlice.username (5 + 1440) 0)
      (logout (Token.signed uAlice.id uAlice.username (5 + 1440) 0)
        (login 0 5 "alice" "hunter2pass" stAuth).2).2 =
      VerifyResult.revoked := by
  have h := C2_verify_session_lifecycle 0 1 5 2000 9 "alice" "hunter2pass"
    stAuth uAlice (by decide) (by decide) (by decide)
  exact ⟨h.1, h.2.1, h.2.2.1 (by decide), h.2.2.2.1, h.2.2.2.2.1 (by decide),
    h.2.2.2.2.2⟩

/-- C9: with `JWT_SECRET` unset, each `AuthManager` draws a fresh random JWT
signing secret at construction, while the second instance loads the Fernet key
the first persisted; hence both instances share the encryption key (and decrypt
each other's ciphertexts), yet a token issued through `login` by the first
instance is rejected by the second as an invalid token. -/
theorem C9_fresh_jwt_secret_per_instance (k1 k2 r1 r2 now now2 : Nat)
    (d username password : String) (st st2 : AuthState) (tok : Token)
    (hr : r1 ≠ r2)
    (hsucc : (login (mkAuthManager none k1 r1 ⟨none⟩).1.jwtSecret now username
        password st).1 = LoginResult.success tok) :
    (mkAuthManager none k2 r2 (mkAuthManager none k1 r1 ⟨none⟩).2).1.encryptionKey =
      (mkAuthManager none k1 r1 ⟨none⟩).1.encryptionKey ∧
    decrypt_data
      (mkAuthManager none k2 r2 (mkAuthManager none k1 r1 ⟨none⟩).2).1.encryptionKey
      (encrypt_data (mkAuthManager none k1 r1 ⟨none⟩).1.encryptionKey d) =
        some d ∧
    verify_token
      (mkAuthManager none k2 r2 (mkAuthManager none k1 r1 ⟨none⟩).2).1.jwtSecret
      now2 tok st2 = VerifyResult.failMsg "Invalid token" := by
  refine ⟨rfl, by simp [decrypt_data, encrypt_data, fernetDecrypt, fernetEncrypt,
    mkAuthManager], ?_⟩
  have hsucc' : (login r1 now username password st).1 = LoginResult.success tok :=
    hsucc
  show verify_token r2 now2 tok st2 = VerifyResult.failMsg "Invalid token"
  unfold login at hsucc'
  cases hf : findUser username st with
  | none => rw [hf] at hsucc'; exact absurd hsucc' (by simp)
  | some user =>
    rw [hf] at hsucc'
    by_cases hl : isLockedNow now user = true
    · simp [hl] at hsucc'
    · by_cases hv : verify_password password user.passwordHash = true
      · simp [hl, hv] at hsucc'
        rw [← hsucc']
        simp [verify_token, jwtDecode, hr]
      · simp [hl, hv] at hsucc'

/-- Witness for C9: two managers built over the same key file with fresh secrets
0 and 1; alice's token from the first fails verification under the second while
the shared Fernet key round-trips data. -/
theorem C9_fresh_jwt_secret_per_instance_witness :
    (mkAuthManager none 11 1 (mkAuthManager none 10 0 ⟨none⟩).2).1.encryptionKey =
      (mkAuthManager none 10 0 ⟨none⟩).1.encryptionKey ∧
    decrypt_data
      (mkAuthManager none 11 1 (mkAuthManager none 10 0 ⟨none⟩).2).1.encryptionKey
      (encrypt_data (mkAuthManager none 10 0 ⟨none⟩).1.encryptionKey "payload") =
        some "payload" ∧
    verify_token
      (mkAuthManager none 11 1 (mkAuthManager none 10 0 ⟨none⟩).2).1.jwtSecret
      5 (Token.signed uAlice.id uAlice.username (5 + 1440) 0) stAuth =
      VerifyResult.failMsg "Invalid token" :=
  C9_fresh_jwt_secret_per_instance 10 11 0 1 5 5 "payload" "alice"
    "hunter2pass" stAuth stAuth
    (Token.signed uAlice.id uAlice.username (5 + 1440) 0)
    (by decide) (by decide)

/-- C7 (amended): `listTransactions` returns only the bound user's
transactions, ordered by date descending; the inclusive `[startDate, endDate]`
filter is applied only when BOTH bounds are supplied — when one (or both) is
absent the query carries no BETWEEN clause and the result is the user's full,
unfiltered listing. -/
theorem C7_list_transactions_scope_order (key uid s e : Nat)
    (sd ed : Option Nat) (st : BudgetState) (res res2 : List DecTrans)
    (h : get_transactions key uid sd ed st = Except.ok res)
    (h2 : get_transactions key uid (some s) (some e) st = Except.ok res2) :
    (∀ t ∈ res, t.userId = uid) ∧
    List.Pairwise (fun a b => b.date ≤ a.date) res ∧
    (∀ t ∈ res2, s ≤ t.date ∧ t.date ≤ e) ∧
    ((sd = none ∨ ed = none) →
      get_transactions key uid sd ed st =
        get_transactions key uid none none st) := by
  have keymap : ∀ (sdx edx : Option Nat) (r : List DecTrans),
      get_transactions key uid sdx edx st = Except.ok r →
      r.map (fun t => (t.userId, t.date)) =
        (sortByDateDesc (st.transactions.filter
          (fun x => x.userId == uid && inRange sdx edx x.date))).map
          (fun x => (x.userId, x.date)) := by
    intro sdx edx r hr
    exact decryptRows_map key _ r hr
  refine ⟨?_, ?_, ?_, ?_⟩
  · intro t ht
    have hmem : (t.userId, t.date) ∈ res.map (fun t => (t.userId, t.date)) :=
      List.mem_map_of_mem _ ht
    rw [keymap sd ed res h] at hmem
    obtain ⟨r, hrmem, hreq⟩ := List.mem_map.mp hmem
    have hp := (List.mem_filter.mp (mem_sortByDateDesc.mp hrmem)).2
    simp only [Bool.and_eq_true, beq_iff_eq] at hp
    have he : r.userId = t.userId ∧ r.date = t.date := by
      simpa [Prod.ext_iff] using hreq
    rw [← he.1]
    exact hp.1
  · have hdates : res.map (fun t => t.date) =
        (sortByDateDesc (st.transactions.filter
          (fun x => x.userId == uid && inRange sd ed x.date))).map
          (fun x => x.date) := by
      have := congrArg (List.map Prod.snd) (keymap sd ed res h)
      simpa [List.map_map, Function.comp] using this
    have hsorted := pairwise_sortByDateDesc
      (st.transactions.filter (fun x => x.userId == uid && inRange sd ed x.date))
    have hmapped : List.Pairwise (fun a b : Nat => b ≤ a)
        (res.map (fun t => t.date)) := by
      rw [hdates]
      exact List.pairwise_map.mpr hsorted
    exact List.pairwise_map.mp hmapped
  · intro t ht
    have hmem : (t.userId, t.date) ∈ res2.map (fun t => (t.userId, t.date)) :=
      List.mem_map_of_mem _ ht
    rw [keymap (some s) (some e) res2 h2] at hmem
    obtain ⟨r, hrmem, hreq⟩ := List.mem_map.mp hmem
    have hp := (List.mem_filter.mp (mem_sortByDateDesc.mp hrmem)).2
    simp only [Bool.and_eq_true, beq_iff_eq, inRange,
      decide_eq_true_eq] at hp
    have he : r.userId = t.userId ∧ r.date = t.date := by
      simpa [Prod.ext_iff] using hreq
    rw [← he.2]
    exact hp.2
  · intro hor
    unfold get_transactions
    have hfun : (fun r : TransRow => r.userId == uid && inRange sd ed r.date) =
        (fun r : TransRow => r.userId == uid && inRange none none r.date) := by
      funext r
      rw [inRange_none sd ed r.date hor,
        inRange_none none none r.date (Or.inl rfl)]
    rw [hfun]

/-- Witness for C7 on `stC7`: a start date of 8 with no end date returns both
of user 1's rows unfiltered; the range [6, 10] keeps only the date-10 row. -/
theorem C7_list_transactions_scope_order_witness :
    (∀ t ∈ resC7, t.userId = 1) ∧
    List.Pairwise (fun a b => b.date ≤ a.date) resC7 ∧
    (∀ t ∈ resC7r, 6 ≤ t.date ∧ t.date ≤ 10) ∧
    ((some 8 = (none : Option Nat) ∨ (none : Option Nat) = none) →
      get_transactions 0 1 (some 8) none stC7 =
        get_transactions 0 1 none none stC7) :=
  C7_list_transactions_scope_order 0 1 6 10 (some 8) none stC7 resC7 resC7r
    rfl rfl

/-- C7 counterexample: the claim says each date bound is independently
optional, but with `startDate = 8` supplied alone the code applies no filter:
the result still contains the transaction dated 5 < 8. -/
theorem C7_counterexample_start_only :
    (get_transactions 0 1 (some 8) none stC7).toOption.map
      (List.map (fun t => t.date)) = some [10, 5] ∧ 5 < 8 :=
  ⟨rfl, by decide⟩

/-- A `Bool.all` over a list survives filtering. -/
theorem all_filter_of_all {α : Type} (p q : α → Bool) (l : List α)
    (h : l.all p = true) : (l.filter q).all p = true := by
  rw [List.all_eq_true] at h ⊢
  intro x hx
  exact h x (List.mem_filter.mp hx).1

/-- `add_transaction` preserves the description invariant (it appends one row
whose description column is a ciphertext under the current key). -/
theorem descOk_add_transaction (key uid now date : Nat) (amt : ℚ)
    (cat desc : String) (st : BudgetState) (h : descOk key st = true) :
    descOk key (add_transaction key uid now date amt cat st desc) = true := by
  unfold descOk at h
  unfold descOk add_transaction
  simp only [List.all_append]
  rw [h]
  simp [descOkRow, fernetEncrypt]

/-- The re-insert loop of `import_database` preserves the description
invariant, whether it completes or aborts mid-way. -/
theorem descOk_importTransList (key uid now : Nat) (ts : List BackupTrans)
    (st : BudgetState) (h : descOk key st = true) :
    descOk key (importTransList key uid now ts st).2 = true := by
  induction ts generalizing st with
  | nil => exact h
  | cons t ts ih =>
    cases htd : t.date with
    | none => simpa [importTransList, htd] using h
    | some d =>
      cases htdesc : t.description with
      | none => simpa [importTransList, htd, htdesc] using h
      | some desc =>
        have hstep := descOk_add_transaction key uid now d t.amount t.category
          desc st h
        simpa [importTransList, htd, htdesc] using ih _ hstep

/-- `import_database` preserves the description invariant on every path. -/
theorem descOk_import_database (key uid now : Nat)
    (blob : Ciphertext BackupBlob) (st : BudgetState)
    (h : descOk key st = true) :
    descOk key (import_database key uid now blob st).2 = true := by
  unfold import_database
  cases hb : fernetDecrypt key blob with
  | none => exact h
  | some pb =>
    cases pb with
    | invalidJson j => exact h
    | valid sal txs =>
      have hclear : descOk key
          { st with
            salary := st.salary.filter (fun r => r.userId != uid)
            transactions :=
              st.transactions.filter (fun r => r.userId != uid) } = true := by
        unfold descOk at h ⊢
        exact all_filter_of_all _ _ _ h
      have hwith : ∀ (b : BudgetState), descOk key b = true →
          descOk key
            (if sal ≠ 0 then update_salary key uid now sal b else b) = true := by
        intro b hb
        by_cases hs : sal ≠ 0
        · rw [if_pos hs]; exact hb
        · rw [if_neg hs]; exact hb
      exact descOk_importTransList key uid now txs _ (hwith _ hclear)

/-- A row satisfying the description invariant stores
`some (enc key d)` in its description column. -/
theorem descOkRow_shape (key : Nat) (r : TransRow)
    (h : descOkRow key r = true) :
    ∃ d, r.descriptionEncrypted = some (Ciphertext.enc key d) := by
  unfold descOkRow at h
  split at h
  · next k dd heq =>
      simp only [beq_iff_eq] at h
      exact ⟨dd, by rw [heq, h]⟩
  · exact absurd h (by simp)

/-- A row satisfying the description invariant never raises the NULL-column
`TypeError` when decrypted. -/
theorem decryptRow_no_typeError (key : Nat) (r : TransRow)
    (h : descOkRow key r = true) :
    decryptRow key r ≠ Except.error DbError.typeError := by
  obtain ⟨d, hd⟩ := descOkRow_shape key r h
  unfold decryptRow
  cases ha : fernetDecrypt key r.amountEncrypted with
  | none => simp
  | some amt =>
    rw [hd]
    simp [fernetDecrypt]

/-- A listing over rows all satisfying the description invariant never fails
with `TypeError` (it may still fail with `DecryptionError` on amounts). -/
theorem decryptRows_no_typeError (key : Nat) (rows : List TransRow)
    (h : rows.all (descOkRow key) = true) :
    decryptRows key rows ≠ Except.error DbError.typeError := by
  induction rows with
  | nil => simp [decryptRows]
  | cons r rs ih =>
    rw [List.all_cons, Bool.and_eq_true] at h
    unfold decryptRows
    cases ha : decryptRow key r with
    | error e =>
      have := decryptRow_no_typeError key r h.1
      rw [ha] at this
      simpa using fun hcontra => this (by rw [hcontra])
    | ok t =>
      cases hrec : decryptRows key rs with
      | error e =>
        have := ih h.2
        rw [hrec] at this
        simpa using fun hcontra => this (by rw [hcontra])
      | ok rest => simp

/-- C10: although the schema declares the description column nullable, every
row created through `add_transaction` (the only insert path, also used for the
rows re-inserted by `import_database`) stores a non-null encrypted description
— the empty string is encrypted when no description is given — and under this
invariant `get_transactions` can unconditionally decrypt the description of
every row it returns (the NULL-column `TypeError` is unreachable). -/
theorem C10_description_column_never_null (key uid now date : Nat) (amt : ℚ)
    (cat desc : String) (sd ed : Option Nat) (blob : Ciphertext BackupBlob)
    (st : BudgetState) :
    (add_transaction key uid now date amt cat st).transactions =
      st.transactions ++
        [{ id := st.nextTransId, userId := uid, date := date,
           amountEncrypted := fernetEncrypt key amt, category := cat,
           descriptionEncrypted := some (fernetEncrypt key ""),
           createdAt := now }] ∧
    (add_transaction key uid now date amt cat st desc).transactions =
      st.transactions ++
        [{ id := st.nextTransId, userId := uid, date := date,
           amountEncrypted := fernetEncrypt key amt, category := cat,
           descriptionEncrypted := some (fernetEncrypt key desc),
           createdAt := now }] ∧
    (descOk key st = true →
      descOk key (add_transaction key uid now date amt cat st desc) = true) ∧
    (descOk key st = true →
      descOk key (import_database key uid now blob st).2 = true) ∧
    (descOk key st = true →
      get_transactions key uid sd ed st ≠ Except.error DbError.typeError) := by
  refine ⟨rfl, rfl, descOk_add_transaction key uid now date amt cat desc st,
    descOk_import_database key uid now blob st, ?_⟩
  intro hok
  show decryptRows key (sortByDateDesc (st.transactions.filter
    (fun r => r.userId == uid && inRange sd ed r.date))) ≠
    Except.error DbError.typeError
  apply decryptRows_no_typeError
  rw [List.all_eq_true]
  intro x hx
  have hok2 : st.transactions.all (descOkRow key) = true := hok
  exact List.all_eq_true.mp hok2 x
    (List.mem_filter.mp (mem_sortByDateDesc.mp hx)).1

/-- Witness for C10 on `stC7` (whose rows all satisfy the invariant) at key 0:
appends with and without the default description, import of a sample blob, and
the absence of `TypeError` in a listing. -/
theorem C10_description_column_never_null_witness :
    (add_transaction 0 1 4 3 7 "Needs" stC7).transactions =
      stC7.transactions ++
        [{ id := stC7.nextTransId, userId := 1, date := 3,
           amountEncrypted := fernetEncrypt 0 7, category := "Needs",
           descriptionEncrypted := some (fernetEncrypt 0 ""),
           createdAt := 4 }] ∧
    (add_transaction 0 1 4 3 7 "Needs" stC7 "x").transactions =
      stC7.transactions ++
        [{ id := stC7.nextTransId, userId := 1, date := 3,
           amountEncrypted := fernetEncrypt 0 7, category := "Needs",
           descriptionEncrypted := some (fernetEncrypt 0 "x"),
           createdAt := 4 }] ∧
    descOk 0 (add_transaction 0 1 4 3 7 "Needs" stC7 "x") = true ∧
    descOk 0 (import_database 0 1 4 blobC10 stC7).2 = true ∧
    get_transactions 0 1 none none stC7 ≠
      Except.error DbError.typeError := by
  have h := C10_description_column_never_null 0 1 4 3 7 "Needs" "x" none none
    blobC10 stC7
  exact ⟨h.1, h.2.1, h.2.2.1 (by decide), h.2.2.2.1 (by decide),
    h.2.2.2.2 (by decide)⟩

end SBP
